import Mathlib

/-!
Shallow embedding of the EC2 instance reconciliation module
(`lib/ansible/modules/cloud/amazon/ec2_instance.py`) and proofs about it.

Python dictionaries are modelled as insertion-ordered association lists with
distinct keys; Python sets as `Finset`; fallible code as `Except`.
-/

namespace Ec2Inst

/-- Decidable equality for `Except`, used to evaluate closed statements about
fallible functions. -/
instance {ε α : Type} [DecidableEq ε] [DecidableEq α] :
    DecidableEq (Except ε α) := fun a b =>
  match a, b with
  | .error e, .error f =>
    if h : e = f then isTrue (by rw [h])
    else isFalse (by intro hh; cases hh; exact h rfl)
  | .error _, .ok _ => isFalse (by intro hh; cases hh)
  | .ok _, .error _ => isFalse (by intro hh; cases hh)
  | .ok x, .ok y =>
    if h : x = y then isTrue (by rw [h])
    else isFalse (by intro hh; cases hh; exact h rfl)

/-- `d[k]` / `d.get(k)` on a Python dict: value of the first entry with key `k`. -/
def dictLookup {α : Type} (d : List (String × α)) (k : String) : Option α :=
  (d.find? (fun p => p.1 == k)).map Prod.snd

/-- `d.pop(k)` (removal part): drop every entry whose key is `k`.
On a dict with distinct keys this removes exactly the entry for `k`. -/
def dictErase {α : Type} (d : List (String × α)) (k : String) : List (String × α) :=
  d.filter (fun p => p.1 != k)

/-- `d[k] = v` on a Python dict: overwrite in place when the key exists,
append at the end otherwise. -/
def dictSet {α : Type} (d : List (String × α)) (k : String) (v : α) : List (String × α) :=
  if d.any (fun p => p.1 == k) then d.map (fun p => if p.1 == k then (k, v) else p)
  else d ++ [(k, v)]

/-! ## Resource locator: `find_instances` (source lines 1078-1093) -/

/-- `key.replace("_", "-")` on a single character: the pattern is the single
character underscore, so replacement is characterwise. -/
def replChar (c : Char) : Char :=
  if c = '_' then '-' else c

/-- `key.replace("_", "-")`: replace every underscore by a hyphen. -/
def replaceUnderscores (k : String) : String :=
  String.mk (k.data.map replChar)

/-- `key.startswith("tag:")`. -/
def hasTagPrefix (k : String) : Bool :=
  k.data.take 4 == "tag:".data

/-- Key normalization applied by `find_instances`: a key not prefixed `tag:`
has every underscore replaced by a hyphen (`key.replace("_", "-")`);
a `tag:`-prefixed key is left alone. -/
def normKey (k : String) : String :=
  if hasTagPrefix k then k else replaceUnderscores k

/-- One iteration of the loop `for key in filters.keys(): if not
key.startswith("tag:"): filters[key.replace("_", "-")] = filters.pop(key)`:
pop the key, then set the normalized key to the popped value. -/
def normalizeStep (d : List (String × List String)) (k : String) :
    List (String × List String) :=
  if hasTagPrefix k then d
  else
    match dictLookup d k with
    | none => d
    | some v => dictSet (dictErase d k) (replaceUnderscores k) v

/-- The whole key-normalization loop of `find_instances`: iterate over a
snapshot of the original keys, mutating the dict as the source does. -/
def normalizeFilters (d : List (String × List String)) :
    List (String × List String) :=
  (d.map Prod.fst).foldl normalizeStep d

/-- What `find_instances` submits to the provider. -/
inductive FindQuery
  | byIds (ids : List String)
  | byFilters (filters : List (String × List String))
deriving DecidableEq, Repr

/-- `module.fail_json(msg="No filters provided when they were required")`. -/
inductive FindError
  | noFiltersProvided
deriving DecidableEq, Repr

/-- Python truthiness of the optional `ids` list argument:
truthy iff present and non-empty. -/
def idsTruthy (ids : Option (List String)) : Bool :=
  match ids with
  | none => false
  | some xs => !xs.isEmpty

/-- `find_instances(ec2, ids=None, filters=None)` (source lines 1078-1093):
`if ids:` query by identifier list; `elif filters is None:` fail;
`elif filters is not None:` normalize keys and query by filters. -/
def find_instances (ids : Option (List String))
    (filters : Option (List (String × List String))) :
    Except FindError FindQuery :=
  if idsTruthy ids then .ok (.byIds (ids.getD []))
  else
    match filters with
    | none => .error .noFiltersProvided
    | some fs => .ok (.byFilters (normalizeFilters fs))

/-! ## Tag reconciler: `manage_tags` (source lines 670-689) -/

/-- A boto3 tag-list entry `{'Key': k, 'Value': v}`. -/
structure Bt where
  Key : String
  Value : String
deriving DecidableEq, Repr

/-- Modelled from the spec: `boto3_tag_list_to_ansible_dict` lives in
`ansible.module_utils.ec2`, which is not part of this repository snapshot;
per the spec, tags are "expanded to a plain mapping". -/
def boto3_tag_list_to_ansible_dict (tags : List Bt) : List (String × String) :=
  tags.map (fun t => (t.Key, t.Value))

/-- Modelled from the spec: `ansible_dict_to_boto3_tag_list` from
`ansible.module_utils.ec2` (not in this snapshot), the inverse expansion of a
plain mapping into a boto3 tag list. Values may be absent (`None`) because
`manage_tags` builds the deletion mapping with `old_tags.get(k)`. -/
def ansible_dict_to_boto3_tag_list (d : List (String × Option String)) :
    List (String × Option String) :=
  d

/-- Modelled from the spec: `compare_aws_tags` from `ansible.module_utils.ec2`
(not in this snapshot). Per spec section 4.4: `toSet` is the entries of the
desired mapping whose key is absent from the observed mapping or whose value
differs; `toDelete` is, when purge is requested, the observed keys absent from
the desired mapping, and empty otherwise. -/
def compare_aws_tags (old_tags new_tags : List (String × String))
    (purge_tags : Bool) : List (String × String) × List String :=
  (new_tags.filter (fun p => dictLookup old_tags p.1 ≠ some p.2),
   if purge_tags then
     (old_tags.map Prod.fst).filter (fun k => dictLookup new_tags k = none)
   else [])

/-- The instance record as `manage_tags` reads it: `match['InstanceId']`
and `match['Tags']` (a boto3 tag list). -/
structure TaggedInstance where
  InstanceId : String
  Tags : List Bt
deriving DecidableEq, Repr

/-- A provider call issued by `manage_tags`. -/
inductive TagCall
  | createTags (resources : List String) (tags : List (String × Option String))
  | deleteTags (resources : List String) (tags : List (String × Option String))
deriving DecidableEq, Repr

/-- `manage_tags(match, new_tags, purge_tags, ec2)` (source lines 670-689):
compute the tag delta, issue `create_tags` for a non-empty set-delta and
`delete_tags` for a non-empty delete-delta — each deleted key paired with
`old_tags.get(k)` — and report whether anything changed. -/
def manage_tags (m : TaggedInstance) (new_tags : List (String × String))
    (purge_tags : Bool) : Bool × List TagCall :=
  let old_tags := boto3_tag_list_to_ansible_dict m.Tags
  let delta := compare_aws_tags old_tags new_tags purge_tags
  let tags_to_set := delta.1
  let tags_to_delete := delta.2
  let setCalls : List TagCall :=
    if tags_to_set.isEmpty then []
    else [.createTags [m.InstanceId]
      (ansible_dict_to_boto3_tag_list (tags_to_set.map (fun p => (p.1, some p.2))))]
  let deleteCalls : List TagCall :=
    if tags_to_delete.isEmpty then []
    else
      let delete_with_current_values :=
        tags_to_delete.map (fun k => (k, dictLookup old_tags k))
      [.deleteTags [m.InstanceId]
        (ansible_dict_to_boto3_tag_list delete_with_current_values)]
  (!tags_to_set.isEmpty || !tags_to_delete.isEmpty, setCalls ++ deleteCalls)

/-! ## Attribute diff engine: `diff_instance_and_params` (source lines 1011-1054) -/

/-- The attribute values the source reads back via
`ec2.describe_instance_attribute(Attribute=..., InstanceId=...)`,
one per entry of the mutable-attribute table
(`value[mapping.instance_key]['Value']`). -/
structure AttrValues where
  ebsOptimized : Bool
  disableApiTermination : Bool
deriving DecidableEq, Repr

/-- The fields of the observed instance record that the diff engine reads
directly (`instance['InstanceId']`, `instance['SourceDestCheck']`). -/
structure DiffInstance where
  InstanceId : String
  SourceDestCheck : Bool
deriving DecidableEq, Repr

/-- The `network` sub-dict of the module parameters, restricted to the fields
the diffed/attached components read. -/
structure NetworkParams where
  source_dest_check : Option Bool := none
deriving DecidableEq, Repr

/-- The module parameters that `diff_instance_and_params` reads. -/
structure DiffParams where
  ebs_optimized : Option Bool := none
  termination_protection : Option Bool := none
  network : Option NetworkParams := none
deriving DecidableEq, Repr

/-- One entry of the `ParamMapper` namedtuple table:
`param_key` reads the module parameter, `instance_key` is the name under which
the change is sent (and the key checked against `skip`), and
`attribute_value` stands for reading
`describe_instance_attribute(Attribute=mapping.attribute_name, ...)`
followed by `value[mapping.instance_key]['Value']`. -/
structure ParamMapper where
  param_key : DiffParams → Option Bool
  instance_key : String
  attribute_value : AttrValues → Bool

/-- The fixed mutable-attribute table of the source (`user_data` is commented
out there as an immutable property). -/
def param_mappings : List ParamMapper :=
  [⟨(·.ebs_optimized), "EbsOptimized", (·.ebsOptimized)⟩,
   ⟨(·.termination_protection), "DisableApiTermination", (·.disableApiTermination)⟩]

/-- One attribute mutation produced by the diff engine:
`dict(InstanceId=..., <key>={'Value': v})`. -/
structure ChangeRequest where
  InstanceId : String
  key : String
  Value : Bool
deriving DecidableEq, Repr

/-- One iteration of the `for mapping in param_mappings` loop: when the
parameter is set, its `instance_key` is not in `skip`, and the freshly read
attribute value differs from the desired one, append one change request. -/
def diffStep (inst : DiffInstance) (params : DiffParams) (attrs : AttrValues)
    (skip : List String) (acc : List ChangeRequest) (mapping : ParamMapper) :
    List ChangeRequest :=
  match mapping.param_key params with
  | some desired =>
    if mapping.instance_key ∈ skip then acc
    else if mapping.attribute_value attrs ≠ desired then
      acc ++ [⟨inst.InstanceId, mapping.instance_key, desired⟩]
    else acc
  | none => acc

/-- `diff_instance_and_params(instance, params, ec2, skip)`
(source lines 1011-1054): loop over the mapping table, then the nested
`network.source_dest_check` branch, which compares against the snapshot
`instance['SourceDestCheck']` and does not consult `skip`. -/
def diff_instance_and_params (inst : DiffInstance) (params : DiffParams)
    (attrs : AttrValues) (skip : List String) : List ChangeRequest :=
  let loopChanges := param_mappings.foldl (diffStep inst params attrs skip) []
  match params.network.bind (·.source_dest_check) with
  | some sdc =>
    if inst.SourceDestCheck ≠ sdc then
      loopChanges ++ [⟨inst.InstanceId, "SourceDestCheck", sdc⟩]
    else loopChanges
  | none => loopChanges

/-! ## Network interface reconciler: `change_network_attachments`
(source lines 1057-1075) -/

/-- One desired entry of `network.interfaces`: a bare identifier string, a
dict carrying an `id` key, or a dict without `id` (a new-interface
descriptor, skipped when collecting `new_ids`). -/
inductive IfaceRef
  | strId (s : String)
  | dictId (s : String)
  | dictSpec
deriving DecidableEq, Repr

/-- The identifier collected from a desired entry by the `new_ids` loop,
if any. -/
def ifaceRefId : IfaceRef → Option String
  | .strId s => some s
  | .dictId s => some s
  | .dictSpec => none

/-- The `new_ids` list built by `change_network_attachments`. -/
def new_ids_of (ifaces : List IfaceRef) : List String :=
  ifaces.filterMap ifaceRefId

/-- The observed instance as the reconciler reads it: its identifier and
`[x['NetworkInterfaceId'] for x in instance['NetworkInterfaces']]`. -/
structure NicInstance where
  InstanceId : String
  networkInterfaceIds : List String
deriving DecidableEq, Repr

/-- One `ec2.attach_network_interface(DeviceIndex=..., InstanceId=...,
NetworkInterfaceId=...)` call. -/
structure AttachCall where
  DeviceIndex : Nat
  InstanceId : String
  NetworkInterfaceId : String
deriving DecidableEq, Repr

/-- `change_network_attachments(instance, params, ec2)`
(source lines 1057-1075). The argument `interfaces` is
`(params.get('network') or {}).get('interfaces')` (`none` when the network
block or the interface list is absent). The attach calls are issued one per
element of the Python set `to_attach = set(new_ids) - set(old_ids)`, each with
`DeviceIndex=new_ids.index(eni_id)`; returned alongside is
`bool(len(to_attach))`. -/
def change_network_attachments (inst : NicInstance)
    (interfaces : Option (List IfaceRef)) : Finset AttachCall × Bool :=
  match interfaces with
  | none => (∅, false)
  | some ifaces =>
    let new_ids := new_ids_of ifaces
    let old_ids := inst.networkInterfaceIds
    let to_attach := new_ids.toFinset \ old_ids.toFinset
    (to_attach.image
       (fun eni_id => ⟨new_ids.indexOf eni_id, inst.InstanceId, eni_id⟩),
     !to_attach = ∅)

/-! ## Default subnet selection: `get_default_subnet`
(source lines 1104-1123) -/

/-- A subnet record as returned by `describe_subnets`, restricted to the
fields the source reads. The input list stands for the already-filtered
response (`vpc-id`, `state=available`, `default-for-az=true`). -/
structure Subnet where
  SubnetId : String
  AvailabilityZone : String
deriving DecidableEq, Repr

/-- The comparison `sorted(..., key=lambda s: s['AvailabilityZone'])` sorts
by: Python compares strings lexicographically by code point, which is the
lexicographic order on the underlying character lists. -/
def azLe (a b : Subnet) : Bool :=
  decide (a.AvailabilityZone.data ≤ b.AvailabilityZone.data)

/-- `get_default_subnet(ec2, vpc, availability_zone=None)`
(source lines 1104-1123): when the response is non-empty, first try the
requested availability zone via `subs_by_az = dict((subnet['AvailabilityZone'],
subnet) ...)` — in a dict comprehension the last entry for a zone wins, hence
the reversed search — and otherwise return the head of the list sorted by
availability-zone name. -/
def get_default_subnet (subnets : List Subnet)
    (availability_zone : Option String) : Option Subnet :=
  if subnets.isEmpty then none
  else
    let azPick :=
      match availability_zone with
      | some az => subnets.reverse.find? (fun s => s.AvailabilityZone == az)
      | none => none
    match azPick with
    | some s => some s
    | none => (subnets.mergeSort azLe).head?

/-! ## Spec builder: `build_top_level_options` (source lines 888-937) -/

/-- The `image` sub-dict (`image.id`, `image.ramdisk`, `image.kernel`);
a field is `none` when its key is absent. -/
structure ImageDict where
  id : Option String := none
  ramdisk : Option String := none
  kernel : Option String := none
deriving DecidableEq, Repr

/-- The `launch_template` sub-dict of the module parameters. -/
structure LaunchTemplateParam where
  id : Option String := none
  name : Option String := none
  version : Option String := none
deriving DecidableEq, Repr

/-- The `tower_callback` sub-dict of the module parameters; an `Option` field
is `none` when its key is absent. -/
structure TowerCallback where
  windows : Bool := false
  set_password : Option String := none
  tower_address : Option String := none
  job_template_id : Option String := none
  host_config_key : Option String := none
deriving DecidableEq, Repr

/-- The module parameters read by `build_top_level_options`.
`network_ebs_optimized` stands for
`(params.get('network') or {}).get('ebs_optimized')`. -/
structure TopParams where
  image_id : Option String := none
  image : Option ImageDict := none
  launch_template : Option LaunchTemplateParam := none
  key_name : Option String := none
  user_data : Option String := none
  tower_callback : Option TowerCallback := none
  detailed_monitoring : Bool := false
  cpu_credit_specification : Option String := none
  tenancy : Option String := none
  network_ebs_optimized : Option Bool := none
  instance_initiated_shutdown_behavior : Option String := none
  termination_protection : Option Bool := none
deriving DecidableEq, Repr

/-- Python truthiness of an optional string (`None` and the empty string are
falsy). -/
def strOptTruthy (o : Option String) : Bool :=
  match o with
  | none => false
  | some s => !s.isEmpty

/-- Python truthiness of the optional `launch_template` dict: a dict is
truthy iff non-empty; all-fields-absent models the empty dict. -/
def ltParamTruthy : Option LaunchTemplateParam → Bool
  | none => false
  | some lt => lt.id.isSome || lt.name.isSome || lt.version.isSome

/-- The user data computed by the spec builder. The generated script texts
are opaque payloads here; each constructor records which script
`tower_callback_script` builds and the parameters substituted into it. -/
inductive UserDataVal
  | raw (s : String)
  | towerWindowsWithPassword (passwd : String)
  | towerWindowsNoPassword
  | towerCallbackLoop (tower_address job_template_id host_config_key : String)
deriving DecidableEq, Repr

/-- The `module.fail_json` outcomes reachable from `build_top_level_options`. -/
inductive BuildError
  | missingImage
  | launchTemplateIdOrNameRequired
  | incompleteTowerCallback (field : String)
deriving DecidableEq, Repr

/-- `tower_callback_script(tower_conf, windows, passwd)`
(source lines 620-667): the two Windows variants, and the non-Windows
callback loop that first checks `tower_address`, `job_template_id`,
`host_config_key` for presence (failing on the first missing one). -/
def tower_callback_script (tower_conf : TowerCallback) (windows : Bool)
    (passwd : Option String) : Except BuildError UserDataVal :=
  if windows then
    match passwd with
    | some p => .ok (.towerWindowsWithPassword p)
    | none => .ok .towerWindowsNoPassword
  else
    match tower_conf.tower_address with
    | none => .error (.incompleteTowerCallback "tower_address")
    | some a =>
      match tower_conf.job_template_id with
      | none => .error (.incompleteTowerCallback "job_template_id")
      | some j =>
        match tower_conf.host_config_key with
        | none => .error (.incompleteTowerCallback "host_config_key")
        | some h => .ok (.towerCallbackLoop a j h)

/-- The `spec['LaunchTemplate']` sub-dict built by the source. -/
structure LaunchTemplateSpec where
  LaunchTemplateId : Option String := none
  LaunchTemplateName : Option String := none
  Version : Option String := none
deriving DecidableEq, Repr

/-- The top-level creation-spec fields set by `build_top_level_options`.
`MonitoringEnabled`, `CpuCredits`, `Tenancy` flatten the one-key sub-dicts
`Monitoring`, `CreditSpecification`, `Placement`. -/
structure TopLevelSpec where
  ImageId : Option String := none
  RamdiskId : Option String := none
  KernelId : Option String := none
  KeyName : Option String := none
  UserData : Option UserDataVal := none
  LaunchTemplate : Option LaunchTemplateSpec := none
  MonitoringEnabled : Bool := false
  CpuCredits : Option String := none
  Tenancy : Option String := none
  EbsOptimized : Option Bool := none
  InstanceInitiatedShutdownBehavior : Option String := none
  DisableApiTermination : Option Bool := none
deriving DecidableEq, Repr

/-- `build_top_level_options(params)` (source lines 888-937). The launch
template validation reproduces the source condition verbatim, including its
parenthesization: `if not params.get('launch_template').get('id') or
params.get('launch_template').get('name'): module.fail_json(...)`. -/
def build_top_level_options (params : TopParams) :
    Except BuildError TopLevelSpec :=
  let spec0 : TopLevelSpec := {}
  let spec1 :=
    if strOptTruthy params.image_id then { spec0 with ImageId := params.image_id }
    else
      match params.image with
      | some image =>
        { spec0 with ImageId := image.id, RamdiskId := image.ramdisk,
                     KernelId := image.kernel }
      | none => spec0
  if !strOptTruthy spec1.ImageId && !ltParamTruthy params.launch_template then
    .error .missingImage
  else
    let spec2 :=
      if params.key_name.isSome then { spec1 with KeyName := params.key_name }
      else spec1
    let userDataStep : Except BuildError TopLevelSpec :=
      match params.user_data with
      | some u => .ok { spec2 with UserData := some (.raw u) }
      | none =>
        match params.tower_callback with
        | some tc =>
          (tower_callback_script tc tc.windows tc.set_password).map
            (fun u => { spec2 with UserData := some u })
        | none => .ok spec2
    match userDataStep with
    | .error e => .error e
    | .ok spec3 =>
      let ltStep : Except BuildError TopLevelSpec :=
        match params.launch_template with
        | some lt =>
          if !strOptTruthy lt.id || strOptTruthy lt.name then
            .error .launchTemplateIdOrNameRequired
          else
            let lt0 : LaunchTemplateSpec := {}
            let lt1 := if lt.id.isSome then { lt0 with LaunchTemplateId := lt.id }
                       else lt0
            let lt2 := if lt.name.isSome then { lt1 with LaunchTemplateName := lt.name }
                       else lt1
            let lt3 := if lt.version.isSome then { lt2 with Version := lt.version }
                       else lt2
            .ok { spec3 with LaunchTemplate := some lt3 }
        | none => .ok spec3
      match ltStep with
      | .error e => .error e
      | .ok spec4 =>
        let spec5 := if params.detailed_monitoring then
            { spec4 with MonitoringEnabled := true } else spec4
        let spec6 := if params.cpu_credit_specification.isSome then
            { spec5 with CpuCredits := params.cpu_credit_specification } else spec5
        let spec7 := if params.tenancy.isSome then
            { spec6 with Tenancy := params.tenancy } else spec6
        let spec8 := if params.network_ebs_optimized.isSome then
            { spec7 with EbsOptimized := params.network_ebs_optimized } else spec7
        let spec9 := if strOptTruthy params.instance_initiated_shutdown_behavior then
            { spec8 with InstanceInitiatedShutdownBehavior :=
                params.instance_initiated_shutdown_behavior } else spec8
        let spec10 := if params.termination_protection.isSome then
            { spec9 with DisableApiTermination := params.termination_protection }
          else spec9
        .ok spec10

/-! ## IAM role resolution: `determine_iam_role` (source lines 1248-1259)
and the IAM step of `build_run_instance_spec` (source lines 973-975) -/

/-- A character of the class `[\w+=/,.@-]` in the source pattern
(ASCII reading of `\w`). -/
def isArnChar (c : Char) : Bool :=
  c.isAlphanum || c = '_' || c = '+' || c = '=' || c = '/' || c = ',' ||
    c = '.' || c = '@' || c = '-'

/-- Strip an expected literal prefix from a character list, returning the
remainder when it matches. -/
def stripPrefixChars : List Char → List Char → Option (List Char)
  | [], rest => some rest
  | _ :: _, [] => none
  | p :: ps, c :: cs => if c = p then stripPrefixChars ps cs else none

/-- `re.match(r'^arn:aws:iam::\d+:instance-profile/[\w+=/,.@-]+$', s)`:
literal prefix, one or more digits, literal `:instance-profile/`, one or
more pattern-class characters, end of string. The greedy `\d+` is equivalent
to a maximal digit run because the following literal starts with a
non-digit. -/
def matchesInstanceProfileArnPattern (s : String) : Bool :=
  match stripPrefixChars "arn:aws:iam::".data s.data with
  | none => false
  | some rest =>
    let digits := rest.takeWhile Char.isDigit
    let rest2 := rest.drop digits.length
    !digits.isEmpty &&
      (match stripPrefixChars ":instance-profile/".data rest2 with
       | none => false
       | some suffix => !suffix.isEmpty && suffix.all isArnChar)

/-- The error field of a `ClientError` raised by
`iam.get_instance_profile`. -/
inductive IamLookupError
  | noSuchEntity
  | otherClientError
deriving DecidableEq, Repr

/-- `role['InstanceProfile']` of a successful lookup. -/
structure InstanceProfile where
  Arn : String
deriving DecidableEq, Repr

/-- The `module.fail_json_aws` outcomes of `determine_iam_role`. -/
inductive IamError
  | couldNotFindRole (name : String)
  | errorSearchingRole (name : String)
deriving DecidableEq, Repr

/-- `determine_iam_role(name_or_arn, iam)` (source lines 1248-1259): a value
matching the ARN pattern is returned verbatim; otherwise the profile is
looked up by name, with `NoSuchEntity` reported as "Could not find
instance_role" and any other client error as a generic fatal error. The `iam`
argument models the lookup client. -/
def determine_iam_role (name_or_arn : String)
    (iam : String → Except IamLookupError InstanceProfile) :
    Except IamError String :=
  if matchesInstanceProfileArnPattern name_or_arn then .ok name_or_arn
  else
    match iam name_or_arn with
    | .ok role => .ok role.Arn
    | .error .noSuchEntity => .error (.couldNotFindRole name_or_arn)
    | .error .otherClientError => .error (.errorSearchingRole name_or_arn)

/-- The Python error raised by the call site before the callee runs. -/
inductive PyCallError
  | typeErrorMissingIamArgument
deriving DecidableEq, Repr

/-- The parameters read by the IAM step of `build_run_instance_spec`. -/
structure IamStepParams where
  instance_role : Option String := none
deriving DecidableEq, Repr

/-- The IAM-profile step of `build_run_instance_spec` (source lines 973-975):
`if params.get('instance_role'): spec['IamInstanceProfile'] =
dict(Arn=determine_iam_role(params.get('iam_profile')))`.
The callee `determine_iam_role(name_or_arn, iam)` declares two required
positional parameters, so this one-argument call raises `TypeError` in
Python before the callee body runs; moreover `iam_profile` is not a declared
module parameter (the declared one is `instance_role`), so the argument
passed would be `None` in any case. The raised `TypeError` is modelled as an
error value; on success the result is the optional `Arn` value. -/
def iam_instance_profile_step (params : IamStepParams) :
    Except PyCallError (Option String) :=
  if strOptTruthy params.instance_role then .error .typeErrorMissingIamArgument
  else .ok none

/-! ## State transition controller: `change_instance_state`
(source lines 1203-1239) and `ensure_instance_state` (source lines 1126-1200)
-/

/-- An instance as observed by `find_instances` inside the state controller:
`instance['InstanceId']` and `instance['State']['Name']`. -/
structure InstSnapshot where
  InstanceId : String
  stateName : String
deriving DecidableEq, Repr

/-- The `desired_state` argument ("Takes STOPPED/RUNNING/TERMINATED"). -/
inductive DesiredState
  | STOPPED
  | RUNNING
  | TERMINATED
deriving DecidableEq, Repr

/-- Provider responses to the three mutation calls: the acknowledged
instance-identifier lists (`TerminatingInstances` / `StoppingInstances` /
`StartingInstances`), or a raised `ClientError`/`BotoCoreError`
(swallowed by the source's bare `except ... pass`). -/
structure Ec2StateClient where
  terminateResp : String → Except Unit (List String)
  stopResp : String → Except Unit (List String)
  startResp : String → Except Unit (List String)

/-- The observable outcome of one `change_instance_state` run: the `changed`
and `unchanged` sets, which instances a mutation call was sent for, the
identifiers passed to `await_instances` (`none` when no wait was issued
because nothing changed), and the returned `change_failed =
list(to_change - changed)`. -/
structure ChangeStateOutcome where
  changed : Finset String
  unchanged : Finset String
  callsIssued : List String
  waitedOn : Option (Finset String)
  change_failed : Finset String

/-- `change_instance_state(filters, desired_state, ec2)`
(source lines 1203-1239), with the `find_instances` result supplied as
`instances`. Per instance: terminate/stop/start, where for `STOPPED` an
instance already in the transient state "stopping" is added to `unchanged`
and skipped; acknowledged identifiers are added to `changed`; raised client
errors are swallowed. After the loop, `await_instances(list(changed) +
list(unchanged))` runs only when `changed` is non-empty, and the function
returns `changed` with `change_failed = list(to_change - changed)`. -/
def change_instance_state (client : Ec2StateClient)
    (instances : List InstSnapshot) (desired_state : DesiredState) :
    ChangeStateOutcome :=
  let to_change : Finset String := (instances.map (·.InstanceId)).toFinset
  let step := fun (acc : Finset String × Finset String × List String)
      (inst : InstSnapshot) =>
    match desired_state with
    | .TERMINATED =>
      match client.terminateResp inst.InstanceId with
      | .ok ids => (acc.1 ∪ ids.toFinset, acc.2.1, acc.2.2 ++ [inst.InstanceId])
      | .error _ => (acc.1, acc.2.1, acc.2.2 ++ [inst.InstanceId])
    | .STOPPED =>
      if inst.stateName == "stopping" then
        (acc.1, insert inst.InstanceId acc.2.1, acc.2.2)
      else
        match client.stopResp inst.InstanceId with
        | .ok ids => (acc.1 ∪ ids.toFinset, acc.2.1, acc.2.2 ++ [inst.InstanceId])
        | .error _ => (acc.1, acc.2.1, acc.2.2 ++ [inst.InstanceId])
    | .RUNNING =>
      match client.startResp inst.InstanceId with
      | .ok ids => (acc.1 ∪ ids.toFinset, acc.2.1, acc.2.2 ++ [inst.InstanceId])
      | .error _ => (acc.1, acc.2.1, acc.2.2 ++ [inst.InstanceId])
  let res := instances.foldl step (∅, ∅, [])
  { changed := res.1
    unchanged := res.2.1
    callsIssued := res.2.2
    waitedOn := if res.1 ≠ ∅ then some (res.1 ∪ res.2.1) else none
    change_failed := to_change \ res.1 }

/-- The terminal report of the `restarted`/`rebooted` branch of
`ensure_instance_state`: `reboot_success`/`reboot_failed` as given to
`module.exit_json`/`module.fail_json`, and whether the `fail_json` path was
taken. -/
structure RestartReport where
  reboot_success : Finset String
  reboot_failed : Finset String
  failedExit : Bool

/-- The `restarted`/`rebooted` branch of `ensure_instance_state`
(source lines 1145-1165): one `change_instance_state(..., 'STOPPED')`, then
one `change_instance_state(..., 'RUNNING')` whose results are bound to the
same `changed, failed, instances` variables — overwriting the stop-phase
results — after which `failed` alone decides between `fail_json` and
`exit_json`. The two phases are parametrized by their own observed instance
lists and provider responses. -/
def ensure_restarted (stopClient startClient : Ec2StateClient)
    (stopObserved startObserved : List InstSnapshot) : RestartReport :=
  let _phase1 := change_instance_state stopClient stopObserved .STOPPED
  let phase2 := change_instance_state startClient startObserved .RUNNING
  { reboot_success := phase2.changed
    reboot_failed := phase2.change_failed
    failedExit := phase2.change_failed ≠ ∅ }

/-- A provider that acknowledges every mutation call for exactly the
targeted instance. -/
def ackClient : Ec2StateClient :=
  ⟨fun i => .ok [i], fun i => .ok [i], fun i => .ok [i]⟩

/-- A provider whose stop calls raise a client error (swallowed by the
source) while terminate and start calls are acknowledged. -/
def stopErrClient : Ec2StateClient :=
  ⟨fun i => .ok [i], fun _ => .error (), fun i => .ok [i]⟩

/-! ## Theorems -/

/-- C1: for target state Stopped, a candidate already in lifecycle state
"stopping" is skipped (no duplicate stop call) and, when some other instance
changed, it is included in the waited-on identifiers — but contrary to the
claim it IS returned in the failed set, because the source computes
`change_failed = list(to_change - changed)` and never adds the skipped
instance to `changed`. Run on the failing input (one instance "i-1" in state
"stopping" beside one running instance "i-2", every provider call
acknowledged): no stop call is issued for "i-1" and it is waited on, yet
`change_failed = {"i-1"}`; with "i-1" alone, additionally no wait is issued
at all. -/
theorem stopping_instance_lands_in_failed_set :
    (change_instance_state ackClient
      [⟨"i-1", "stopping"⟩, ⟨"i-2", "running"⟩] .STOPPED).callsIssued = ["i-2"]
    ∧ (change_instance_state ackClient
      [⟨"i-1", "stopping"⟩, ⟨"i-2", "running"⟩] .STOPPED).waitedOn
        = some {"i-2", "i-1"}
    ∧ (change_instance_state ackClient
      [⟨"i-1", "stopping"⟩, ⟨"i-2", "running"⟩] .STOPPED).change_failed = {"i-1"}
    ∧ (change_instance_state ackClient
      [⟨"i-1", "stopping"⟩] .STOPPED).change_failed = {"i-1"}
    ∧ (change_instance_state ackClient
      [⟨"i-1", "stopping"⟩] .STOPPED).waitedOn = none := by
  decide

/-- C9: for the restarted/rebooted target state, a stop-phase failure is
dropped from the reported outcome. On the failing input (one running
instance "i-1" whose stop call raises a client error while its later start
call succeeds), the stop phase returns `change_failed = {"i-1"}`, but the
report built by `ensure_instance_state` — which rebinds `changed, failed,
instances` to the start-phase results — has an empty failure set and takes
the success exit. -/
theorem restart_drops_stop_phase_failures :
    (change_instance_state stopErrClient
      [⟨"i-1", "running"⟩] .STOPPED).change_failed = {"i-1"}
    ∧ (ensure_restarted stopErrClient ackClient
        [⟨"i-1", "running"⟩] [⟨"i-1", "running"⟩]).reboot_failed = ∅
    ∧ (ensure_restarted stopErrClient ackClient
        [⟨"i-1", "running"⟩] [⟨"i-1", "running"⟩]).failedExit = false
    ∧ (ensure_restarted stopErrClient ackClient
        [⟨"i-1", "running"⟩] [⟨"i-1", "running"⟩]).reboot_success = {"i-1"} := by
  decide

/-- C3: contrary to the claim, supplying a launch template with only a name
fails: the source condition `not params.get('launch_template').get('id') or
params.get('launch_template').get('name')` is true whenever the id is absent
OR a name is present. A name-only reference (with an image id present, so the
earlier image check passes) is rejected, while an id-only reference succeeds
with the optional version passed through. -/
theorem launch_template_name_only_rejected :
    build_top_level_options
      { image_id := some "ami-123",
        launch_template := some { name := some "my-template" } }
      = .error .launchTemplateIdOrNameRequired
    ∧ build_top_level_options
      { launch_template := some { id := some "lt-123", name := some "my-template" } }
      = .error .launchTemplateIdOrNameRequired
    ∧ build_top_level_options
      { launch_template := some { id := some "lt-123", version := some "3" } }
      = .ok { LaunchTemplate := some { LaunchTemplateId := some "lt-123",
                                       Version := some "3" } } := by
  decide

/-- C4: when an instance role is supplied, the built spec never carries a
resolved ARN: the IAM step raises `TypeError` (the source calls
`determine_iam_role(params.get('iam_profile'))`, omitting the required `iam`
argument and naming an undeclared parameter). Had `determine_iam_role` been
reached with the declared role, it would behave as the claim says: an
ARN-shaped value is returned verbatim, a bare name is resolved via lookup,
and a `NoSuchEntity` failure is fatal. -/
theorem iam_step_type_error :
    iam_instance_profile_step { instance_role := some "my-role" }
      = .error .typeErrorMissingIamArgument
    ∧ determine_iam_role "arn:aws:iam::123456789012:instance-profile/my-role"
        (fun _ => .error .otherClientError)
      = .ok "arn:aws:iam::123456789012:instance-profile/my-role"
    ∧ determine_iam_role "my-role"
        (fun _ => .ok ⟨"arn:aws:iam::123456789012:instance-profile/my-role"⟩)
      = .ok "arn:aws:iam::123456789012:instance-profile/my-role"
    ∧ determine_iam_role "my-role" (fun _ => .error .noSuchEntity)
      = .error (.couldNotFindRole "my-role") := by
  decide

/-- C2 counterexample: with skip set `["SourceDestCheck"]`, a desired
`network.source_dest_check` differing from the observed value still emits a
change request — the nested source_dest_check branch never consults `skip`. -/
theorem source_dest_check_emitted_despite_skip :
    diff_instance_and_params ⟨"i-1", true⟩
      { network := some { source_dest_check := some false } }
      ⟨false, false⟩ ["SourceDestCheck"]
      = [⟨"i-1", "SourceDestCheck", false⟩] := by
  decide

/-- C7 counterexample: with an empty identifier list and an empty (but
present) filter mapping, `find_instances` does not fail — it submits a query
with no filters. Only an absent (`None`) filter mapping triggers the
validation error. -/
theorem empty_filter_mapping_accepted :
    find_instances (some []) (some []) = .ok (.byFilters [])
    ∧ find_instances (some []) (some []) ≠ .error .noFiltersProvided := by
  decide

/-- C8 counterexample: when two keys collide after normalization, a value
list is lost. Keys "a_b" and "a-b" both normalize to "a-b"; processing "a_b"
first overwrites the value of "a-b", so the original association
`"a-b" ↦ ["2"]` is not preserved. -/
theorem filter_normalization_collision_drops_value :
    normalizeFilters [("a_b", ["1"]), ("a-b", ["2"])] = [("a-b", ["1"])]
    ∧ dictLookup (normalizeFilters [("a_b", ["1"]), ("a-b", ["2"])]) "a-b"
      = some ["1"]
    ∧ dictLookup [("a_b", ["1"]), ("a-b", ["2"])] "a-b" = some ["2"] := by
  decide

/-- A change request produced by one table iteration either was already in
the accumulator or carries that mapping's `instance_key`, which is not in
`skip`. -/
theorem mem_diffStep (inst : DiffInstance) (params : DiffParams)
    (attrs : AttrValues) (skip : List String) (acc : List ChangeRequest)
    (mapping : ParamMapper) (c : ChangeRequest)
    (hc : c ∈ diffStep inst params attrs skip acc mapping) :
    c ∈ acc ∨ (c.key = mapping.instance_key ∧ mapping.instance_key ∉ skip) := by
  unfold diffStep at hc
  split at hc
  · by_cases hskip : mapping.instance_key ∈ skip
    · rw [if_pos hskip] at hc
      exact Or.inl hc
    · rw [if_neg hskip] at hc
      split at hc
      · rcases List.mem_append.mp hc with h | h
        · exact Or.inl h
        · simp only [List.mem_singleton] at h
          subst h
          exact Or.inr ⟨rfl, hskip⟩
      · exact Or.inl hc
  · exact Or.inl hc

/-- A change request produced by the whole table loop either was already in
the accumulator or carries the `instance_key` of some table entry, which is
not in `skip`. -/
theorem mem_diff_loop (inst : DiffInstance) (params : DiffParams)
    (attrs : AttrValues) (skip : List String) :
    ∀ (ms : List ParamMapper) (acc : List ChangeRequest) (c : ChangeRequest),
      c ∈ ms.foldl (diffStep inst params attrs skip) acc →
      c ∈ acc ∨ ∃ m ∈ ms, c.key = m.instance_key ∧ m.instance_key ∉ skip := by
  intro ms
  induction ms with
  | nil => exact fun acc c hc => Or.inl hc
  | cons m ms ih =>
    intro acc c hc
    rcases ih _ c hc with h | ⟨m2, hm2, h⟩
    · rcases mem_diffStep inst params attrs skip acc m c h with h2 | h2
      · exact Or.inl h2
      · exact Or.inr ⟨m, by simp, h2⟩
    · exact Or.inr ⟨m2, by simp [hm2], h⟩

/-- C2 (amended): the skip set is honored for the two table-driven mutable
attributes — no change request whose key is `EbsOptimized` or
`DisableApiTermination` (or anything other than `SourceDestCheck`) is
emitted for a key in `skip` — while the nested `network.source_dest_check`
branch does not consult `skip` at all. -/
theorem skip_honored_for_mapped_attributes (inst : DiffInstance)
    (params : DiffParams) (attrs : AttrValues) (skip : List String) :
    ∀ c ∈ diff_instance_and_params inst params attrs skip,
      c.key ≠ "SourceDestCheck" → c.key ∉ skip := by
  intro c hc hkey
  have hloop : ∀ c2 ∈ param_mappings.foldl (diffStep inst params attrs skip)
      ([] : List ChangeRequest), c2.key ∉ skip := by
    intro c2 hc2
    rcases mem_diff_loop inst params attrs skip param_mappings [] c2 hc2 with
      h | ⟨m, _, h1, h2⟩
    · simp at h
    · rw [h1]; exact h2
  simp only [diff_instance_and_params] at hc
  split at hc
  case _ sdc _ =>
    split at hc
    · rcases List.mem_append.mp hc with h | h
      · exact hloop c h
      · simp only [List.mem_singleton] at h
        subst h
        simp at hkey
    · exact hloop c hc
  case _ => exact hloop c hc

/-- C2 witness: a concrete run of the amended theorem — with
`skip = ["DisableApiTermination"]`, the emitted `EbsOptimized` change is for
a key outside the skip set. -/
theorem skip_honored_for_mapped_attributes_witness :
    ("EbsOptimized" : String) ∉ (["DisableApiTermination"] : List String) :=
  skip_honored_for_mapped_attributes ⟨"i-1", true⟩ { ebs_optimized := some true }
    ⟨false, false⟩ ["DisableApiTermination"] ⟨"i-1", "EbsOptimized", true⟩
    (by decide) (by decide)

/-- C7 (amended): `find_instances` queries by the identifier list alone —
ignoring the filter argument — whenever that list is truthy (present and
non-empty), and fails with the validation error exactly when the identifier
list is not truthy and the filter mapping is absent (`None`); a present
filter mapping, even an empty one, is normalized and submitted. -/
theorem find_instances_requires_present_filters (ids : Option (List String))
    (filters : Option (List (String × List String))) :
    ((∃ e, find_instances ids filters = .error e) ↔
      (idsTruthy ids = false ∧ filters = none))
    ∧ (idsTruthy ids = true →
       ∀ g, find_instances ids g = .ok (.byIds (ids.getD [])))
    ∧ (idsTruthy ids = false → ∀ fs, filters = some fs →
       find_instances ids filters = .ok (.byFilters (normalizeFilters fs))) := by
  refine ⟨⟨?_, ?_⟩, ?_, ?_⟩
  · rintro ⟨e, he⟩
    cases h : idsTruthy ids with
    | true => simp [find_instances, h] at he
    | false =>
      cases filters with
      | none => exact ⟨rfl, rfl⟩
      | some fs => simp [find_instances, h] at he
  · rintro ⟨h1, h2⟩
    subst h2
    exact ⟨.noFiltersProvided, by simp [find_instances, h1]⟩
  · intro h g
    simp [find_instances, h]
  · intro h fs hfs
    subst hfs
    simp [find_instances, h]

/-- C7 witness: a concrete run of the amended theorem — a non-empty
identifier list is queried by identifiers, with the filter argument
ignored. -/
theorem find_instances_requires_present_filters_witness :
    find_instances (some ["i-9"]) (some [("a_b", ["x"])])
      = .ok (.byIds ["i-9"]) :=
  (find_instances_requires_present_filters (some ["i-9"]) none).2.1 (by decide)
    (some [("a_b", ["x"])])

/-- A key occurring among a dict's keys has a value. -/
theorem dictLookup_isSome_of_mem_keys {α : Type} (d : List (String × α))
    (k : String) (h : k ∈ d.map Prod.fst) : (dictLookup d k).isSome = true := by
  obtain ⟨p, hp, rfl⟩ := List.mem_map.mp h
  have hfs : (List.find? (fun q => q.1 == p.1) d).isSome = true :=
    List.find?_isSome.mpr ⟨p, hp, by simp⟩
  unfold dictLookup
  cases hfind : List.find? (fun q => q.1 == p.1) d with
  | none => rw [hfind] at hfs; simp at hfs
  | some q => rfl

/-- C10: every tag key scheduled for deletion is sent to the provider paired
with its currently observed value (`old_tags.get(k)`, necessarily present
because the delete-delta is drawn from the observed keys), and when both the
set-delta and the delete-delta are empty, `manage_tags` issues no provider
call and reports no change. -/
theorem manage_tags_delete_uses_observed_values (m : TaggedInstance)
    (new_tags : List (String × String)) (purge_tags : Bool) :
    (∀ rs ts, TagCall.deleteTags rs ts ∈ (manage_tags m new_tags purge_tags).2 →
      ∀ kv ∈ ts,
        kv.2 = dictLookup (boto3_tag_list_to_ansible_dict m.Tags) kv.1
        ∧ kv.2.isSome = true)
    ∧ (compare_aws_tags (boto3_tag_list_to_ansible_dict m.Tags) new_tags
        purge_tags = ([], []) →
      manage_tags m new_tags purge_tags = (false, [])) := by
  constructor
  · intro rs ts hmem kv hkv
    simp only [manage_tags] at hmem
    rcases List.mem_append.mp hmem with h | h
    · split at h
      · simp at h
      · simp at h
    · split at h
      · simp at h
      · simp only [ansible_dict_to_boto3_tag_list, List.mem_singleton] at h
        cases h
        obtain ⟨k, hk, rfl⟩ := List.mem_map.mp hkv
        refine ⟨rfl, ?_⟩
        apply dictLookup_isSome_of_mem_keys
        simp only [compare_aws_tags] at hk
        cases purge_tags with
        | false => simp at hk
        | true => exact (List.mem_filter.mp hk).1
  · intro h
    simp [manage_tags, h]

/-- C10 witness: a concrete purge run — the deleted key `env` is sent paired
with its observed value `prod`. -/
theorem manage_tags_delete_uses_observed_values_witness :
    ((some "prod" : Option String)
        = dictLookup (boto3_tag_list_to_ansible_dict [⟨"env", "prod"⟩]) "env")
    ∧ (some "prod" : Option String).isSome = true :=
  (manage_tags_delete_uses_observed_values ⟨"i-1", [⟨"env", "prod"⟩]⟩ [] true).1
    ["i-1"] [("env", some "prod")] (by decide) ("env", some "prod") (by decide)

/-- When every desired entry carries an identifier, the collected `new_ids`
list is the entrywise identifier list. -/
theorem new_ids_of_eq_map (ifaces : List IfaceRef)
    (hId : ∀ r ∈ ifaces, (ifaceRefId r).isSome = true) :
    new_ids_of ifaces = ifaces.map (fun r => (ifaceRefId r).getD "") := by
  induction ifaces with
  | nil => rfl
  | cons a l ih =>
    have ha := hId a (by simp)
    obtain ⟨s, hs⟩ := Option.isSome_iff_exists.mp ha
    simp only [new_ids_of, List.filterMap_cons, hs, List.map_cons,
      Option.getD_some, List.cons.injEq, true_and]
    exact ih (fun r hr => hId r (by simp [hr]))

/-- C5: for target interface lists whose entries all carry identifiers (with
no duplicate identifier), the attach calls issued by
`change_network_attachments` are exactly the set difference desired minus
observed — never an already-attached identifier — each call's device index
is the position of its identifier in the desired list, and re-running with
the observed list augmented by the delta yields an empty delta. -/
theorem network_attach_delta (inst : NicInstance) (ifaces : List IfaceRef)
    (hId : ∀ r ∈ ifaces, (ifaceRefId r).isSome = true) :
    (∀ c ∈ (change_network_attachments inst (some ifaces)).1,
       c.NetworkInterfaceId ∈ new_ids_of ifaces
       ∧ c.NetworkInterfaceId ∉ inst.networkInterfaceIds
       ∧ c.InstanceId = inst.InstanceId)
    ∧ (∀ s, s ∈ new_ids_of ifaces → s ∉ inst.networkInterfaceIds →
        ∃ c ∈ (change_network_attachments inst (some ifaces)).1,
          c.NetworkInterfaceId = s)
    ∧ (∀ c ∈ (change_network_attachments inst (some ifaces)).1,
        ∃ hlt : c.DeviceIndex < ifaces.length,
          ifaceRefId (ifaces.get ⟨c.DeviceIndex, hlt⟩)
            = some c.NetworkInterfaceId)
    ∧ (change_network_attachments
        ⟨inst.InstanceId,
         inst.networkInterfaceIds ++
           (new_ids_of ifaces).filter
             (fun s => decide (s ∉ inst.networkInterfaceIds))⟩
        (some ifaces)).1 = ∅ := by
  have hmem : ∀ c, c ∈ (change_network_attachments inst (some ifaces)).1 ↔
      ∃ s, (s ∈ new_ids_of ifaces ∧ s ∉ inst.networkInterfaceIds) ∧
        (⟨(new_ids_of ifaces).indexOf s, inst.InstanceId, s⟩ : AttachCall) = c := by
    intro c
    simp [change_network_attachments, Finset.mem_image, Finset.mem_sdiff,
      List.mem_toFinset]
  refine ⟨?_, ?_, ?_, ?_⟩
  · intro c hc
    obtain ⟨s, ⟨hs, hns⟩, rfl⟩ := (hmem c).mp hc
    exact ⟨hs, hns, rfl⟩
  · intro s hs hns
    exact ⟨⟨(new_ids_of ifaces).indexOf s, inst.InstanceId, s⟩,
      (hmem _).mpr ⟨s, ⟨hs, hns⟩, rfl⟩, rfl⟩
  · intro c hc
    obtain ⟨s, ⟨hs, _⟩, rfl⟩ := (hmem c).mp hc
    have hmap := new_ids_of_eq_map ifaces hId
    have hlen : (new_ids_of ifaces).indexOf s < (new_ids_of ifaces).length :=
      List.indexOf_lt_length.mpr hs
    have hlt : (new_ids_of ifaces).indexOf s < ifaces.length := by
      have hlen2 : (new_ids_of ifaces).length = ifaces.length := by
        rw [hmap, List.length_map]
      rw [← hlen2]
      exact hlen
    refine ⟨hlt, ?_⟩
    have hget : (new_ids_of ifaces).get ⟨(new_ids_of ifaces).indexOf s, hlen⟩ = s :=
      List.indexOf_get hlen
    rw [List.get_of_eq hmap ⟨_, hlen⟩] at hget
    rw [List.get_map] at hget
    have hr := hId (ifaces.get ⟨(new_ids_of ifaces).indexOf s, hlt⟩)
      (List.get_mem _ _ _)
    obtain ⟨t, ht⟩ := Option.isSome_iff_exists.mp hr
    rw [ht]
    rw [ht] at hget
    simp only [Option.getD_some] at hget
    rw [hget]
  · ext c
    simp only [change_network_attachments, Finset.mem_image, Finset.mem_sdiff,
      List.mem_toFinset, List.mem_append, List.mem_filter,
      Finset.not_mem_empty, iff_false, not_exists, not_and, decide_eq_true_eq]
    tauto

/-- C5 witness: a concrete run of the theorem — with "eni-a" attached and
["eni-a", "eni-b"] desired, an attach call for "eni-b" is issued. -/
theorem network_attach_delta_witness :
    ∃ c ∈ (change_network_attachments ⟨"i-5", ["eni-a"]⟩
        (some [.strId "eni-a", .strId "eni-b"])).1,
      c.NetworkInterfaceId = "eni-b" :=
  (network_attach_delta ⟨"i-5", ["eni-a"]⟩ [.strId "eni-a", .strId "eni-b"]
    (by decide)).2.1 "eni-b" (by decide) (by decide)

/-- The sort comparison is transitive. -/
theorem azLe_trans : ∀ a b c : Subnet,
    azLe a b = true → azLe b c = true → azLe a c = true := by
  intro a b c h1 h2
  simp only [azLe, decide_eq_true_eq] at h1 h2 ⊢
  exact le_trans h1 h2

/-- The sort comparison is total. -/
theorem azLe_total : ∀ a b : Subnet, (azLe a b || azLe b a) = true := by
  intro a b
  simp only [azLe, Bool.or_eq_true, decide_eq_true_eq]
  exact le_total _ _

/-- C6: on a non-empty qualifying subnet list, `get_default_subnet` is
deterministic: when an availability zone is explicitly requested and a
subnet with that zone exists, a subnet with that zone is returned; otherwise
the returned subnet has the lexicographically least availability-zone name
among the given subnets. -/
theorem default_subnet_deterministic (subnets : List Subnet)
    (az? : Option String) (hne : subnets ≠ []) :
    (∀ az, az? = some az → az ∈ subnets.map Subnet.AvailabilityZone →
       ∃ s, get_default_subnet subnets az? = some s ∧ s ∈ subnets
         ∧ s.AvailabilityZone = az)
    ∧ ((az? = none ∨ ∃ az, az? = some az
          ∧ az ∉ subnets.map Subnet.AvailabilityZone) →
       ∃ s, get_default_subnet subnets az? = some s ∧ s ∈ subnets
         ∧ ∀ t ∈ subnets,
             s.AvailabilityZone.data ≤ t.AvailabilityZone.data) := by
  have hE : subnets.isEmpty = false := by
    cases subnets with
    | nil => exact absurd rfl hne
    | cons a l => rfl
  have hsorted_head : ∀ s, (subnets.mergeSort azLe).head? = some s →
      s ∈ subnets
      ∧ ∀ t ∈ subnets, s.AvailabilityZone.data ≤ t.AvailabilityZone.data := by
    intro s hs
    have hperm := List.mergeSort_perm subnets azLe
    have hpair := List.sorted_mergeSort azLe_trans azLe_total subnets
    cases hms : subnets.mergeSort azLe with
    | nil => rw [hms] at hs; cases hs
    | cons x xs =>
      rw [hms] at hs
      simp only [List.head?_cons, Option.some.injEq] at hs
      subst hs
      rw [hms] at hperm hpair
      constructor
      · exact hperm.mem_iff.mp (by simp)
      · intro t ht
        rcases List.mem_cons.mp (hperm.mem_iff.mpr ht) with rfl | htl
        · exact le_refl _
        · have := List.rel_of_pairwise_cons hpair htl
          simpa [azLe, decide_eq_true_eq] using this
  have hhead : ∃ s, (subnets.mergeSort azLe).head? = some s ∧ s ∈ subnets
      ∧ ∀ t ∈ subnets, s.AvailabilityZone.data ≤ t.AvailabilityZone.data := by
    cases hh : (subnets.mergeSort azLe).head? with
    | none =>
      exfalso
      have hlen := (List.mergeSort_perm subnets azLe).length_eq
      rw [List.head?_eq_none_iff] at hh
      rw [hh] at hlen
      exact hne (List.length_eq_zero.mp (by simpa using hlen.symm))
    | some s =>
      exact ⟨s, rfl, (hsorted_head s hh).1, (hsorted_head s hh).2⟩
  constructor
  · intro az haz hmem
    subst haz
    have hfind : (subnets.reverse.find?
        (fun s => s.AvailabilityZone == az)).isSome = true := by
      rw [List.find?_isSome]
      obtain ⟨s, hs, rfl⟩ := List.mem_map.mp hmem
      exact ⟨s, List.mem_reverse.mpr hs, by simp⟩
    obtain ⟨s, hs⟩ := Option.isSome_iff_exists.mp hfind
    refine ⟨s, ?_, List.mem_reverse.mp (List.mem_of_find?_eq_some hs), ?_⟩
    · simp [get_default_subnet, hE, hs]
    · have := List.find?_some hs
      simpa using this
  · intro hcase
    obtain ⟨s, hh, hsm, hmin⟩ := hhead
    rcases hcase with haz | ⟨az, haz, hazmem⟩
    · subst haz
      exact ⟨s, by simp [get_default_subnet, hE, hh], hsm, hmin⟩
    · subst haz
      have hfind : subnets.reverse.find?
          (fun s => s.AvailabilityZone == az) = none := by
        rw [List.find?_eq_none]
        intro x hx hbeq
        apply hazmem
        have hxa : x.AvailabilityZone = az := by simpa using hbeq
        rw [← hxa]
        exact List.mem_map_of_mem _ (List.mem_reverse.mp hx)
      exact ⟨s, by simp [get_default_subnet, hE, hfind, hh], hsm, hmin⟩

/-- C6 witness: a concrete run of the theorem — with no explicit zone, the
returned default subnet has the lexicographically least availability-zone
name. -/
theorem default_subnet_deterministic_witness :
    ∃ s, get_default_subnet
        [⟨"subnet-b", "us-east-1b"⟩, ⟨"subnet-a", "us-east-1a"⟩] none = some s
      ∧ s ∈ [(⟨"subnet-b", "us-east-1b"⟩ : Subnet), ⟨"subnet-a", "us-east-1a"⟩]
      ∧ ∀ t ∈ [(⟨"subnet-b", "us-east-1b"⟩ : Subnet), ⟨"subnet-a", "us-east-1a"⟩],
          s.AvailabilityZone.data ≤ t.AvailabilityZone.data :=
  (default_subnet_deterministic
    [⟨"subnet-b", "us-east-1b"⟩, ⟨"subnet-a", "us-east-1a"⟩] none
    (by decide)).2 (Or.inl rfl)

/-- Characterwise underscore replacement is idempotent. -/
theorem replChar_idem (c : Char) : replChar (replChar c) = replChar c := by
  by_cases h : c = '_'
  · simp [replChar, h]
  · simp [replChar, h]

/-- Underscore replacement is idempotent. -/
theorem replaceUnderscores_idem (k : String) :
    replaceUnderscores (replaceUnderscores k) = replaceUnderscores k := by
  show String.mk ((k.data.map replChar).map replChar)
      = String.mk (k.data.map replChar)
  congr 1
  rw [List.map_map]
  exact List.map_congr_left (fun a _ => by
    simp only [Function.comp_apply, replChar_idem])

/-- Characterwise replacement cannot produce a list without hyphens unless
each character was already its own image. -/
theorem map_replChar_eq_of_no_hyphen :
    ∀ (l m : List Char), l.map replChar = m → (∀ c ∈ m, c ≠ '-') → l = m := by
  intro l
  induction l with
  | nil =>
    intro m h _
    simpa using h
  | cons a l ih =>
    intro m h hm
    cases m with
    | nil => simp at h
    | cons b bs =>
      simp only [List.map_cons, List.cons.injEq] at h
      obtain ⟨hab, hl⟩ := h
      have hb : b ≠ '-' := hm b (by simp)
      have ha : a = b := by
        by_cases hu : a = '_'
        · rw [hu] at hab
          have hru : replChar '_' = '-' := by decide
          rw [hru] at hab
          exact absurd hab.symm hb
        · rw [replChar, if_neg hu] at hab
          exact hab
      rw [ha]
      exact congrArg (b :: ·) (ih bs hl (fun c hc => hm c (by simp [hc])))

/-- A key without the `tag:` prefix still lacks it after underscore
replacement (replacement can only introduce hyphens, and `tag:` contains
none). -/
theorem hasTagPrefix_replace (k : String) (h : hasTagPrefix k = false) :
    hasTagPrefix (replaceUnderscores k) = false := by
  have hk : (k.data.take 4 == "tag:".data) = false := h
  show ((k.data.map replChar).take 4 == "tag:".data) = false
  rw [beq_eq_false_iff_ne] at hk ⊢
  intro hcon
  rw [← List.map_take] at hcon
  exact hk (map_replChar_eq_of_no_hyphen _ _ hcon (by decide))

/-- Key normalization is idempotent. -/
theorem normKey_idem (k : String) : normKey (normKey k) = normKey k := by
  cases h : hasTagPrefix k with
  | true => simp [normKey, h]
  | false => simp [normKey, h, hasTagPrefix_replace k h, replaceUnderscores_idem]

/-- Distinct normalized keys force distinct keys. -/
theorem keys_nodup_of_normKeys_nodup {α : Type} (d : List (String × α))
    (h : (d.map (fun p => normKey p.1)).Nodup) : (d.map Prod.fst).Nodup := by
  have h2 : ((d.map Prod.fst).map normKey).Nodup := by
    rw [List.map_map]
    exact h
  exact List.Nodup.of_map _ h2

/-- On a dict with distinct keys, lookup finds a member entry's value. -/
theorem dictLookup_eq_some_of_mem {α : Type} (d : List (String × α))
    (hnd : (d.map Prod.fst).Nodup) (k : String) (v : α) (hm : (k, v) ∈ d) :
    dictLookup d k = some v := by
  induction d with
  | nil => simp at hm
  | cons p l ih =>
    rcases List.mem_cons.mp hm with h | hm2
    · rw [← h]
      simp [dictLookup]
    · have hp1 : (p.1 == k) = false := by
        rw [beq_eq_false_iff_ne]
        intro he
        rw [List.map_cons] at hnd
        apply (List.nodup_cons.mp hnd).1
        rw [he]
        exact List.mem_map_of_mem _ hm2
      have ihh := ih (by rw [List.map_cons] at hnd; exact (List.nodup_cons.mp hnd).2) hm2
      show ((p :: l).find? (fun q => q.1 == k)).map Prod.snd = some v
      rw [List.find?_cons_of_neg _ (by simp [hp1])]
      exact ihh

/-- On a collision-free dict containing `(k, v)`, one non-`tag:` loop
iteration pops the entry for `k` and appends the normalized entry. -/
theorem normalizeStep_eq (cur : List (String × List String)) (k : String)
    (v : List String)
    (hnd : (cur.map (fun p => normKey p.1)).Nodup)
    (hm : (k, v) ∈ cur)
    (htag : hasTagPrefix k = false) :
    normalizeStep cur k = dictErase cur k ++ [(normKey k, v)] := by
  have hkeys := keys_nodup_of_normKeys_nodup cur hnd
  have hlook : dictLookup cur k = some v :=
    dictLookup_eq_some_of_mem cur hkeys k v hm
  have hnk : normKey k = replaceUnderscores k := by simp [normKey, htag]
  have hnone : (dictErase cur k).any (fun p => p.1 == normKey k) = false := by
    rw [Bool.eq_false_iff]
    intro hany
    obtain ⟨q, hq, hqk⟩ := List.any_eq_true.mp hany
    have hqmem : q ∈ cur := (List.mem_filter.mp hq).1
    have hqne : q.1 ≠ k := by simpa using (List.mem_filter.mp hq).2
    have hqk2 : q.1 = normKey k := by simpa using hqk
    have hfeq : (fun (p : String × List String) => normKey p.1) q
        = (fun (p : String × List String) => normKey p.1) (k, v) := by
      simp only []
      rw [hqk2, normKey_idem]
    have := List.inj_on_of_nodup_map hnd hqmem hm hfeq
    exact hqne (by rw [this])
  unfold normalizeStep
  simp only [htag, Bool.false_eq_true, if_false, hlook]
  rw [← hnk]
  unfold dictSet
  rw [hnone]
  simp

/-- The key-normalization loop, under collision-freedom: after processing
the pending keys, every entry of the working dict is found under its
normalized key with its value intact. -/
theorem normalize_loop_lookup :
    ∀ (ks : List String) (cur : List (String × List String)),
      (cur.map (fun p => normKey p.1)).Nodup →
      (ks.map normKey).Nodup →
      (∀ k ∈ ks, ∃ v, (k, v) ∈ cur) →
      (∀ p ∈ cur, p.1 ∉ ks → normKey p.1 = p.1) →
      ∀ p ∈ cur,
        dictLookup (ks.foldl normalizeStep cur) (normKey p.1) = some p.2 := by
  intro ks
  induction ks with
  | nil =>
    intro cur h1 _ _ h4 p hp
    simp only [List.foldl_nil]
    rw [h4 p hp (by simp)]
    exact dictLookup_eq_some_of_mem cur (keys_nodup_of_normKeys_nodup cur h1)
      p.1 p.2 hp
  | cons k ks ih =>
    intro cur h1 h2 h3 h4 p hp
    simp only [List.foldl_cons]
    rw [List.map_cons] at h2
    by_cases htag : hasTagPrefix k = true
    · have hstep : normalizeStep cur k = cur := by
        unfold normalizeStep
        simp [htag]
      rw [hstep]
      refine ih cur h1 (List.nodup_cons.mp h2).2
        (fun k2 hk2 => h3 k2 (by simp [hk2])) ?_ p hp
      intro q hq hqn
      by_cases hqk : q.1 = k
      · rw [hqk]
        simp [normKey, htag]
      · exact h4 q hq (fun hmem => by
          rcases List.mem_cons.mp hmem with h | h
          · exact hqk h
          · exact hqn h)
    · have htagf : hasTagPrefix k = false := Bool.eq_false_iff.mpr htag
      obtain ⟨v, hv⟩ := h3 k (by simp)
      have hstep := normalizeStep_eq cur k v h1 hv htagf
      rw [hstep]
      have hsep : ∀ q ∈ dictErase cur k, normKey q.1 ≠ normKey k := by
        intro q hq heq
        have hqmem : q ∈ cur := (List.mem_filter.mp hq).1
        have hqne : q.1 ≠ k := by simpa using (List.mem_filter.mp hq).2
        have hfeq : (fun (p : String × List String) => normKey p.1) q
            = (fun (p : String × List String) => normKey p.1) (k, v) := heq
        have := List.inj_on_of_nodup_map h1 hqmem hv hfeq
        exact hqne (by rw [this])
      have herasesub := List.filter_sublist (p := fun p => p.1 != k) cur
      have h1e : ((dictErase cur k).map (fun p => normKey p.1)).Nodup :=
        List.Nodup.sublist (herasesub.map _) h1
      have h1' : (((dictErase cur k) ++ [(normKey k, v)]).map
          (fun p => normKey p.1)).Nodup := by
        rw [List.map_append]
        refine List.Nodup.append h1e (by simp) ?_
        intro a ha hb
        simp only [List.map_cons, List.map_nil, List.mem_singleton] at hb
        obtain ⟨q, hq, rfl⟩ := List.mem_map.mp ha
        exact hsep q hq (hb.trans (normKey_idem k))
      have h3' : ∀ k2 ∈ ks, ∃ v2, (k2, v2) ∈ (dictErase cur k ++ [(normKey k, v)]) := by
        intro k2 hk2
        obtain ⟨v2, hv2⟩ := h3 k2 (by simp [hk2])
        have hk2ne : k2 ≠ k := by
          intro he
          apply (List.nodup_cons.mp h2).1
          rw [← he]
          exact List.mem_map_of_mem _ hk2
        exact ⟨v2, List.mem_append_left _
          (List.mem_filter.mpr ⟨hv2, by simpa using hk2ne⟩)⟩
      have h4' : ∀ q ∈ (dictErase cur k ++ [(normKey k, v)]),
          q.1 ∉ ks → normKey q.1 = q.1 := by
        intro q hq hqn
        rcases List.mem_append.mp hq with hq1 | hq2
        · have hqmem : q ∈ cur := (List.mem_filter.mp hq1).1
          have hqne : q.1 ≠ k := by simpa using (List.mem_filter.mp hq1).2
          exact h4 q hqmem (fun hmem => by
            rcases List.mem_cons.mp hmem with h | h
            · exact hqne h
            · exact hqn h)
        · simp only [List.mem_singleton] at hq2
          rw [hq2]
          exact normKey_idem k
      have hfinal := ih (dictErase cur k ++ [(normKey k, v)]) h1'
        (List.nodup_cons.mp h2).2 h3' h4'
      by_cases hpk : p.1 = k
      · have hpkv : p = (k, v) := by
          apply List.inj_on_of_nodup_map h1 hp hv
          simp only []
          rw [hpk]
        have hm2 : ((normKey k, v) : String × List String)
            ∈ (dictErase cur k ++ [(normKey k, v)]) :=
          List.mem_append_right _ (by simp)
        have hres := hfinal _ hm2
        rw [normKey_idem] at hres
        rw [hpkv]
        exact hres
      · have hq1 : p ∈ dictErase cur k :=
          List.mem_filter.mpr ⟨hp, by simpa using hpk⟩
        exact hfinal p (List.mem_append_left _ hq1)

/-- C8 (amended): provided no two distinct keys normalize to the same key,
the normalization loop of `find_instances` maps every filter entry to its
normalized key — non-`tag:` keys get underscores replaced by hyphens,
`tag:`-prefixed keys pass through unchanged — with its value list preserved.
(When two keys collide after normalization, the later-processed entry
overwrites the earlier one and a value list is lost.) -/
theorem filter_normalization_no_collision (d : List (String × List String))
    (hnodup : (d.map (fun p => normKey p.1)).Nodup) :
    ∀ p ∈ d, dictLookup (normalizeFilters d) (normKey p.1) = some p.2 := by
  have h2 : ((d.map Prod.fst).map normKey).Nodup := by
    rw [List.map_map]
    exact hnodup
  refine fun p hp => normalize_loop_lookup (d.map Prod.fst) d hnodup h2 ?_ ?_ p hp
  · intro k hk
    obtain ⟨q, hq, rfl⟩ := List.mem_map.mp hk
    exact ⟨q.2, hq⟩
  · intro q hq hqn
    exact absurd (List.mem_map_of_mem _ hq) hqn

/-- C8 witness: a concrete collision-free run — the underscore key is found
under its hyphenated form and the `tag:` key under itself, values intact. -/
theorem filter_normalization_no_collision_witness :
    dictLookup (normalizeFilters
        [("instance_state_name", ["running"]), ("tag:Name", ["web_1"])])
      (normKey "instance_state_name") = some ["running"]
    ∧ dictLookup (normalizeFilters
        [("instance_state_name", ["running"]), ("tag:Name", ["web_1"])])
      (normKey "tag:Name") = some ["web_1"] :=
  ⟨filter_normalization_no_collision _ (by decide)
     ("instance_state_name", ["running"]) (by decide),
   filter_normalization_no_collision _ (by decide)
     ("tag:Name", ["web_1"]) (by decide)⟩

end Ec2Inst
